import Mathlib

/-!
Verification of the sonatina IR core: a shallow embedding of the data-flow
graph (`crates/ir/src/dfg.rs`), the module builder
(`crates/ir/src/builder/module_builder.rs`) and the function builder
(`crates/codegen/src/ir/builder/func_builder.rs`), together with theorems
settling the spec's claims about them.

Entity handles (`Value`, `Insn`, `Block`, `FuncRef`, `GlobalVariable`) are
arena indices, modelled as `Nat`.  `PrimaryMap` arenas become `List`s indexed
by position; `SecondaryMap`s and hash maps with a default become total
functions updated pointwise; the `BTreeSet` user sets become `Finset Insn`.
Rust panics are modelled by `Option` results (`none` = panic).
-/

namespace Sonatina

abbrev Value := Nat
abbrev Insn := Nat
abbrev Block := Nat
abbrev FuncRef := Nat
abbrev GlobalVariable := Nat
abbrev Variable := Nat

/-- Pointwise update of a total map, used to model writes into
`SecondaryMap` / hash-map entries. -/
def upd {α β : Type} [DecidableEq α] (m : α → β) (k : α) (v : β) : α → β :=
  fun x => if x = k then v else m x

/-- Structural types.  Modelled from the spec: the type store interns
`int(width)` and `pointer(Type)` (arrays/structs/functions are never consulted
by the verified operations, so the scalar and pointer kinds suffice to give
every value a type). -/
inductive Ty where
  | int (width : Nat)
  | ptr (pointee : Ty)
deriving DecidableEq

/-- An interned constant: a scalar integer of some width.  Modelled from the
spec ("scalar integer (signed/unsigned widths up to 256 bits)"); identity is
structural, which is what the `FxHashMap` keys on. -/
structure Immediate where
  width : Nat
  val : Int
deriving DecidableEq

def Immediate.ty (imm : Immediate) : Ty := .int imm.width

inductive UnaryOp where
  | not | neg
deriving DecidableEq

inductive BinaryOp where
  | add | sub | mul | udiv | sdiv
  | lt | gt | slt | sgt | le | ge | sle | sge | eq | ne
  | and | or
deriving DecidableEq

/-- Comparison opcodes produce a 1-bit result; the rest share the operand
type (spec section on instruction variants). -/
def BinaryOp.is_cmp : BinaryOp → Bool
  | .lt | .gt | .slt | .sgt | .le | .ge | .sle | .sge | .eq | .ne => true
  | _ => false

inductive CastOp where
  | sext | zext | trunc
deriving DecidableEq

inductive DataLocationKind where
  | memory | storage
deriving DecidableEq

/-- Instruction payloads.  Modelled from the spec's variant list; operand
layouts match the uses visible in `dfg.rs` and `func_builder.rs`: `BrTable`
stores `args = cond :: case values` parallel to `table` (the case blocks),
`Phi` stores parallel `values`/`blocks` lists. -/
inductive InsnData where
  | unary (op : UnaryOp) (arg : Value)
  | binary (op : BinaryOp) (lhs rhs : Value)
  | cast (op : CastOp) (arg : Value) (ty : Ty)
  | load (addr : Value) (ty : Ty) (loc : DataLocationKind)
  | store (addr data : Value) (loc : DataLocationKind)
  | alloca (ty : Ty)
  | jump (dest : Block)
  | branch (cond : Value) (destThen destElse : Block)
  | brTable (args : List Value) (defaultDest : Option Block) (table : List Block)
  | ret (arg : Option Value)
  | phi (values : List Value) (blocks : List Block) (ty : Ty)
  | call (callee : FuncRef) (args : List Value)
deriving DecidableEq

/-- The operand list, as `InsnData::args` exposes it. -/
def InsnData.args : InsnData → List Value
  | .unary _ a => [a]
  | .binary _ a b => [a, b]
  | .cast _ a _ => [a]
  | .load a _ _ => [a]
  | .store a b _ => [a, b]
  | .alloca _ => []
  | .jump _ => []
  | .branch c _ _ => [c]
  | .brTable as _ _ => as
  | .ret a => a.toList
  | .phi vs _ _ => vs
  | .call _ as => as

/-- Writing a value through `args_mut()[idx]`; indices past the operand list
leave the instruction unchanged (the Rust slice write would panic there, and
callers guard the index). -/
def InsnData.setArg : InsnData → Nat → Value → InsnData
  | .unary op _, 0, v => .unary op v
  | .binary op _ b, 0, v => .binary op v b
  | .binary op a _, 1, v => .binary op a v
  | .cast op _ t, 0, v => .cast op v t
  | .load _ t l, 0, v => .load v t l
  | .store _ b l, 0, v => .store v b l
  | .store a _ l, 1, v => .store a v l
  | .branch _ t e, 0, v => .branch v t e
  | .brTable as d tb, i, v => .brTable (as.set i v) d tb
  | .ret (some _), 0, v => .ret (some v)
  | .phi vs bs t, i, v => .phi (vs.set i v) bs t
  | .call f as, i, v => .call f (as.set i v)
  | d, _, _ => d

/-- Rewriting every operand through `args_mut()`, as `change_to_alias` does. -/
def InsnData.mapArgs (f : Value → Value) : InsnData → InsnData
  | .unary op a => .unary op (f a)
  | .binary op a b => .binary op (f a) (f b)
  | .cast op a t => .cast op (f a) t
  | .load a t l => .load (f a) t l
  | .store a b l => .store (f a) (f b) l
  | .alloca t => .alloca t
  | .jump d => .jump d
  | .branch c t e => .branch (f c) t e
  | .brTable as d tb => .brTable (as.map f) d tb
  | .ret a => .ret (a.map f)
  | .phi vs bs t => .phi (vs.map f) bs t
  | .call g as => .call g (as.map f)

def InsnData.is_phi : InsnData → Bool
  | .phi .. => true
  | _ => false

/-- Modelled from the spec: `BranchInfo` is represented by its destination
list (`iter_dests`); for `BrTable` the default comes first, matching the
order in which the builder registers predecessors.  `dests_num` is the
length. -/
def InsnData.analyze_branch : InsnData → List Block
  | .jump d => [d]
  | .branch _ t e => [t, e]
  | .brTable _ dflt tbl => dflt.toList ++ tbl
  | _ => []

/-- Modelled from the spec: result types per opcode (`result_type` lives in
the missing `insn.rs`).  `valueTy` looks an operand's type up in the value
arena passed in. -/
def InsnData.result_type (valueTy : Value → Option Ty)
    (funcRet : FuncRef → Option Ty) : InsnData → Option Ty
  | .unary _ a => valueTy a
  | .binary op a _ => if op.is_cmp then some (.int 1) else valueTy a
  | .cast _ _ t => some t
  | .load _ t _ => some t
  | .store .. => none
  | .alloca t => some (.ptr t)
  | .jump _ => none
  | .branch .. => none
  | .brTable .. => none
  | .ret _ => none
  | .phi _ _ t => some t
  | .call f _ => funcRet f

/-- Modelled from the spec: `InsnData::append_phi_arg` grows the φ's
entry lists; a non-φ is a contract violation (panic). -/
def InsnData.append_phi_arg : InsnData → Value → Block → Option InsnData
  | .phi vs bs t, v, b => some (.phi (vs ++ [v]) (bs ++ [b]) t)
  | _, _, _ => none

/-- Modelled from the spec: `InsnData::remove_phi_arg` removes the entry
flowing through the given block and returns its value, panicking when the
instruction is not a φ or no entry comes from that block. -/
def InsnData.remove_phi_arg : InsnData → Block → Option (Value × InsnData)
  | .phi vs bs t, b => do
      let i ← bs.findIdx? (fun x => decide (x = b))
      let v ← vs[i]?
      some (v, .phi (vs.eraseIdx i) (bs.eraseIdx i) t)
  | _, _ => none

inductive ConstantValue where
  | immediate (imm : Immediate)
  | aggregate (elems : List Immediate)
deriving DecidableEq

inductive Linkage where
  | public_ | private_ | external_
deriving DecidableEq

/-- Modelled from the spec: a named global with type, linkage, constness and
optional init (`global_variable.rs` is not under `src/`). -/
structure GlobalVariableData where
  symbol : String
  ty : Ty
  linkage : Linkage
  is_const : Bool
  init : Option ConstantValue
deriving DecidableEq

/-- Modelled from the spec: the global-variable store arena with the
`is_const` / `init_data` queries `value_imm` relies on. -/
structure GlobalVariableStore where
  gvs : List GlobalVariableData
deriving DecidableEq

def GlobalVariableStore.is_const (s : GlobalVariableStore) (gv : GlobalVariable) : Bool :=
  ((s.gvs[gv]?).map (·.is_const)).getD false

def GlobalVariableStore.init_data (s : GlobalVariableStore) (gv : GlobalVariable) :
    Option ConstantValue :=
  (s.gvs[gv]?).bind (·.init)

def GlobalVariableStore.ty (s : GlobalVariableStore) (gv : GlobalVariable) : Option Ty :=
  (s.gvs[gv]?).map (·.ty)

structure Signature where
  name : String
  args : List Ty
  ret_ty : Option Ty
  linkage : Linkage
deriving DecidableEq

/-- The module context: the global-variable store and the declared-function
signature table (the parts the verified operations consult). -/
structure ModuleCtx where
  gv_store : GlobalVariableStore
  declared_funcs : List (FuncRef × Signature)

def ModuleCtx.func_ret (ctx : ModuleCtx) (f : FuncRef) : Option Ty :=
  ((ctx.declared_funcs.find? (fun p => decide (p.1 = f))).map (·.2)).bind (·.ret_ty)

inductive ValueData where
  | insn (insn : Insn) (ty : Ty)
  | arg (ty : Ty) (idx : Nat)
  | immediate (imm : Immediate) (ty : Ty)
  | global (gv : GlobalVariable) (ty : Ty)
deriving DecidableEq

def ValueData.ty : ValueData → Ty
  | .insn _ t => t
  | .arg t _ => t
  | .immediate _ t => t
  | .global _ t => t

/-- The data-flow graph of `dfg.rs`: arenas for blocks, values and
instructions, the result map, the immediate-interning map and the user
sets. -/
structure DataFlowGraph where
  ctx : ModuleCtx
  blocks : Nat
  values : List ValueData
  insns : List InsnData
  insn_results : Insn → Option Value
  immediates : List (Immediate × Value)
  users : Value → Finset Insn

namespace DataFlowGraph

def new (ctx : ModuleCtx) : DataFlowGraph :=
  { ctx := ctx, blocks := 0, values := [], insns := []
    insn_results := fun _ => none, immediates := [], users := fun _ => ∅ }

def make_block (d : DataFlowGraph) : DataFlowGraph × Block :=
  ({ d with blocks := d.blocks + 1 }, d.blocks)

def make_value (d : DataFlowGraph) (vd : ValueData) : DataFlowGraph × Value :=
  ({ d with values := d.values ++ [vd] }, d.values.length)

/-- Inserting an instruction into every operand's user set
(`attach_user`'s loop body over `data.args()`). -/
def attachUsers (users : Value → Finset Insn) (insn : Insn) (args : List Value) :
    Value → Finset Insn :=
  args.foldl (fun u a => upd u a (insert insn (u a))) users

/-- Erasing an instruction from each listed value's user set. -/
def dropUsers (users : Value → Finset Insn) (insn : Insn) (args : List Value) :
    Value → Finset Insn :=
  args.foldl (fun u a => upd u a ((u a).erase insn)) users

def make_insn (d : DataFlowGraph) (data : InsnData) : DataFlowGraph × Insn :=
  let insn := d.insns.length
  ({ d with insns := d.insns ++ [data]
            users := attachUsers d.users insn data.args }, insn)

def immLookup (m : List (Immediate × Value)) (imm : Immediate) : Option Value :=
  (m.find? (fun p => decide (p.1 = imm))).map (·.2)

def make_imm_value (d : DataFlowGraph) (imm : Immediate) : DataFlowGraph × Value :=
  match immLookup d.immediates imm with
  | some v => (d, v)
  | none =>
      let (d1, v) := d.make_value (.immediate imm imm.ty)
      ({ d1 with immediates := d1.immediates ++ [(imm, v)] }, v)

def make_global_value (d : DataFlowGraph) (gv : GlobalVariable) :
    Option (DataFlowGraph × Value) :=
  (d.ctx.gv_store.ty gv).map (fun gvTy => d.make_value (.global gv (.ptr gvTy)))

def attach_user (d : DataFlowGraph) (insn : Insn) : Option DataFlowGraph := do
  let data ← d.insns[insn]?
  some { d with users := attachUsers d.users insn data.args }

def remove_user (d : DataFlowGraph) (value : Value) (user : Insn) : DataFlowGraph :=
  { d with users := upd d.users value ((d.users value).erase user) }

def replace_insn (d : DataFlowGraph) (insn : Insn) (data : InsnData) :
    Option DataFlowGraph := do
  let old ← d.insns[insn]?
  let users1 := dropUsers d.users insn old.args
  some { d with insns := d.insns.set insn data
                users := attachUsers users1 insn data.args }

def change_to_alias (d : DataFlowGraph) (value alias_ : Value) : Option DataFlowGraph :=
  if ∀ i ∈ d.users value, i < d.insns.length then
    let us := d.users value
    let insns1 := d.insns.mapIdx (fun i data =>
      if i ∈ us then data.mapArgs (fun a => if a = value then alias_ else a) else data)
    let users1 := upd d.users value ∅
    some { d with insns := insns1
                  users := upd users1 alias_ (users1 alias_ ∪ us) }
  else none

def make_result (d : DataFlowGraph) (insn : Insn) : Option ValueData := do
  let data ← d.insns[insn]?
  let ty ← data.result_type (fun v => (d.values[v]?).map (·.ty)) d.ctx.func_ret
  some (.insn insn ty)

def attach_result (d : DataFlowGraph) (insn : Insn) (value : Value) :
    Option DataFlowGraph :=
  if (d.insn_results insn).isSome then none
  else some { d with insn_results := upd d.insn_results insn (some value) }

def value_data (d : DataFlowGraph) (value : Value) : Option ValueData :=
  d.values[value]?

def value_ty (d : DataFlowGraph) (value : Value) : Option Ty :=
  (d.value_data value).map (·.ty)

def value_insn (d : DataFlowGraph) (value : Value) : Option Insn :=
  match d.value_data value with
  | some (.insn i _) => some i
  | _ => none

def value_imm (d : DataFlowGraph) (value : Value) : Option Immediate :=
  match d.value_data value with
  | some (.immediate imm _) => some imm
  | some (.global gv _) =>
      if ¬ d.ctx.gv_store.is_const gv then none
      else
        match d.ctx.gv_store.init_data gv with
        | some (.immediate data) => some data
        | _ => none
  | _ => none

def value_gv (d : DataFlowGraph) (value : Value) : Option GlobalVariable :=
  match d.value_data value with
  | some (.global gv _) => some gv
  | _ => none

def is_phi (d : DataFlowGraph) (insn : Insn) : Bool :=
  ((d.insns[insn]?).map (·.is_phi)).getD false

def append_phi_arg (d : DataFlowGraph) (insn : Insn) (value : Value) (block : Block) :
    Option DataFlowGraph := do
  let data ← d.insns[insn]?
  let data1 ← data.append_phi_arg value block
  let d1 := { d with insns := d.insns.set insn data1 }
  d1.attach_user insn

def remove_phi_arg (d : DataFlowGraph) (insn : Insn) (from_ : Block) :
    Option (DataFlowGraph × Value) := do
  let data ← d.insns[insn]?
  let (removed, data1) ← data.remove_phi_arg from_
  some ((({ d with insns := d.insns.set insn data1 } : DataFlowGraph).remove_user
          removed insn), removed)

def insn_args (d : DataFlowGraph) (insn : Insn) : List Value :=
  ((d.insns[insn]?).map (·.args)).getD []

def replace_insn_arg (d : DataFlowGraph) (insn : Insn) (new_arg : Value) (idx : Nat) :
    Option (DataFlowGraph × Value) := do
  let data ← d.insns[insn]?
  let old_arg ← data.args[idx]?
  let users1 := upd d.users new_arg (insert insn (d.users new_arg))
  let data1 := data.setArg idx new_arg
  let users2 :=
    if old_arg ∈ data1.args then users1
    else upd users1 old_arg ((users1 old_arg).erase insn)
  some ({ d with insns := d.insns.set insn data1, users := users2 }, old_arg)

def insn_result (d : DataFlowGraph) (insn : Insn) : Option Value :=
  d.insn_results insn

/-- The case-removal step of `remove_branch_dest` on a `BrTable`: if the
default matches it becomes absent, otherwise the case entries whose block
equals `dest` are partitioned out of the (table, case-value) pairs. -/
def brTableStep (args : List Value) (dflt : Option Block) (tbl : List Block)
    (dest : Block) : InsnData :=
  if dflt = some dest then .brTable args none tbl
  else
    match args with
    | [] => .brTable args dflt tbl
    | cond :: rest =>
        let keep := (tbl.zip rest).filter (fun p => decide (p.1 ≠ dest))
        .brTable (cond :: keep.map (·.2)) dflt (keep.map (·.1))

/-- The case values dropped by that step (their user edges are removed). -/
def brTableDroppedVals (args : List Value) (dflt : Option Block) (tbl : List Block)
    (dest : Block) : List Value :=
  if dflt = some dest then []
  else
    match args with
    | [] => []
    | _ :: rest => ((tbl.zip rest).filter (fun p => decide (p.1 = dest))).map (·.2)

def remove_branch_dest (d : DataFlowGraph) (insn : Insn) (dest : Block) :
    Option DataFlowGraph := do
  let data ← d.insns[insn]?
  match data with
  | .jump _ => none
  | .branch cond d0 d1 =>
      let remain ←
        if d0 = dest then some d1
        else if d1 = dest then some d0
        else none
      some { d with insns := d.insns.set insn (.jump remain)
                    users := upd d.users cond ((d.users cond).erase insn) }
  | .brTable args dflt tbl =>
      let data1 := brTableStep args dflt tbl dest
      let users1 := dropUsers d.users insn (brTableDroppedVals args dflt tbl dest)
      if data1.analyze_branch.length = 1 then
        some { d with insns := d.insns.set insn (.jump (data1.analyze_branch.getD 0 0))
                      users := dropUsers users1 insn data1.args }
      else
        some { d with insns := d.insns.set insn data1, users := users1 }
  | _ => none

def analyze_branch (d : DataFlowGraph) (insn : Insn) : List Block :=
  ((d.insns[insn]?).map (·.analyze_branch)).getD []

end DataFlowGraph

/-- One step of the DFG's mutation interface, used to state invariants over
arbitrary operation sequences.  Partial operations that would panic leave
the state unchanged. -/
inductive DfgOp where
  | mkBlock
  | mkValue (vd : ValueData)
  | mkImm (imm : Immediate)
  | mkGlobal (gv : GlobalVariable)
  | mkInsn (data : InsnData)
  | replaceOp (insn : Insn) (data : InsnData)
  | aliasOp (value alias_ : Value)
  | replaceArgOp (insn : Insn) (new_arg : Value) (idx : Nat)
  | appendPhiOp (insn : Insn) (value : Value) (block : Block)
  | removePhiOp (insn : Insn) (from_ : Block)
  | removeBranchDestOp (insn : Insn) (dest : Block)
  | attachUserOp (insn : Insn)
  | removeUserOp (value : Value) (user : Insn)
  | attachResultOp (insn : Insn) (value : Value)

def applyOp (d : DataFlowGraph) : DfgOp → DataFlowGraph
  | .mkBlock => (d.make_block).1
  | .mkValue vd => (d.make_value vd).1
  | .mkImm imm => (d.make_imm_value imm).1
  | .mkGlobal gv => ((d.make_global_value gv).map (·.1)).getD d
  | .mkInsn data => (d.make_insn data).1
  | .replaceOp insn data => (d.replace_insn insn data).getD d
  | .aliasOp v a => (d.change_to_alias v a).getD d
  | .replaceArgOp insn n idx => ((d.replace_insn_arg insn n idx).map (·.1)).getD d
  | .appendPhiOp insn v b => (d.append_phi_arg insn v b).getD d
  | .removePhiOp insn b => ((d.remove_phi_arg insn b).map (·.1)).getD d
  | .removeBranchDestOp insn b => (d.remove_branch_dest insn b).getD d
  | .attachUserOp insn => (d.attach_user insn).getD d
  | .removeUserOp v u => d.remove_user v u
  | .attachResultOp insn v => (d.attach_result insn v).getD d

def applyOps (ops : List DfgOp) (d : DataFlowGraph) : DataFlowGraph :=
  ops.foldl applyOp d

/-- Modelled from the spec: the per-function container handed out by the
module builder (`function.rs` is not under `src/`): the signature it was
declared with plus its data-flow graph. -/
structure Function where
  sig : Signature
  dfg : DataFlowGraph

def Function.new (ctx : ModuleCtx) (sig : Signature) : Function :=
  { sig := sig, dfg := DataFlowGraph.new ctx }

/-- The module builder of `module_builder.rs`: the function store (a map
keyed by `FuncRef`s handed out as consecutive indices, modelled by a list),
the shared context, and the name-to-`FuncRef` deduplication map. -/
structure ModuleBuilder where
  funcs : List Function
  ctx : ModuleCtx
  declared_funcs : List (String × FuncRef)

def lookupName (m : List (String × FuncRef)) (n : String) : Option FuncRef :=
  (m.find? (fun p => decide (p.1 = n))).map (·.2)

def ModuleBuilder.declare_function (mb : ModuleBuilder) (sig : Signature) :
    ModuleBuilder × FuncRef :=
  match lookupName mb.declared_funcs sig.name with
  | some func_ref => (mb, func_ref)
  | none =>
      let func := Function.new mb.ctx sig
      let func_ref : FuncRef := mb.funcs.length
      ({ funcs := mb.funcs ++ [func]
         ctx := { mb.ctx with declared_funcs := mb.ctx.declared_funcs ++ [(func_ref, sig)] }
         declared_funcs := mb.declared_funcs ++ [(sig.name, func_ref)] }, func_ref)

def ModuleBuilder.lookup_func (mb : ModuleBuilder) (name : String) : Option FuncRef :=
  lookupName mb.declared_funcs name

namespace Codegen

/-- The per-function layout (`layout.rs` is not under `src/`): the block
order and each block's instruction list; modelled from the spec's
description of the two intrusive orderings. -/
structure Layout where
  blocks : List Block
  block_insns : Block → List Insn

def Layout.empty : Layout := { blocks := [], block_insns := fun _ => [] }

def Layout.insn_block (l : Layout) (insn : Insn) : Option Block :=
  l.blocks.find? (fun b => decide (insn ∈ l.block_insns b))

def Layout.append_block (l : Layout) (block : Block) : Layout :=
  { l with blocks := l.blocks ++ [block] }

inductive CursorLocation where
  | noWhere
  | atInsn (insn : Insn)
  | blockTop (block : Block)
  | blockBottom (block : Block)
deriving DecidableEq

/-- Modelled from the spec: the block the cursor currently points into. -/
def cursorBlock (l : Layout) : CursorLocation → Option Block
  | .noWhere => none
  | .atInsn i => l.insn_block i
  | .blockTop b => some b
  | .blockBottom b => some b

/-- Modelled from the spec: insertion through the cursor.  At `Nowhere` it is
an error; at a block position it appends to the block; at `At(insn)` it
inserts right after that instruction. -/
def Layout.insertInsn (l : Layout) (loc : CursorLocation) (insn : Insn) :
    Option Layout :=
  match loc with
  | .noWhere => none
  | .blockTop b =>
      some { l with block_insns := upd l.block_insns b (l.block_insns b ++ [insn]) }
  | .blockBottom b =>
      some { l with block_insns := upd l.block_insns b (l.block_insns b ++ [insn]) }
  | .atInsn i => do
      let b ← l.insn_block i
      let idx ← (l.block_insns b).findIdx? (fun x => decide (x = i))
      some { l with block_insns := upd l.block_insns b ((l.block_insns b).take (idx + 1) ++ [insn] ++ (l.block_insns b).drop (idx + 1)) }

/-- The codegen-side function being built: signature, data-flow graph,
layout and the eagerly created argument values. -/
structure Function where
  sig : Signature
  dfg : DataFlowGraph
  layout : Layout
  arg_values : List Value

def Function.new (sig : Signature) : Function :=
  let step := fun (acc : DataFlowGraph × List Value) (ty : Ty) =>
    let (d1, v) := acc.1.make_value (.arg ty acc.2.length)
    (d1, acc.2 ++ [v])
  let (dfg, argvals) := sig.args.foldl step
    (DataFlowGraph.new { gv_store := ⟨[]⟩, declared_funcs := [] }, [])
  { sig := sig, dfg := dfg, layout := Layout.empty, arg_values := argvals }

/-- Modelled from the spec: the slice of the SSA builder's state that the
function builder's terminator emitters touch — the per-block ordered
predecessor lists and the sealed set (`ssa.rs` is not under `src/`). -/
structure SsaBuilder where
  preds : Block → List Block
  sealed_blocks : Block → Bool

def SsaBuilder.new : SsaBuilder := { preds := fun _ => [], sealed_blocks := fun _ => false }

def SsaBuilder.is_sealed (s : SsaBuilder) (block : Block) : Bool :=
  s.sealed_blocks block

def SsaBuilder.append_pred (s : SsaBuilder) (block pred : Block) : SsaBuilder :=
  { s with preds := upd s.preds block (s.preds block ++ [pred]) }

/-- The function builder of `func_builder.rs` (the target-ISA handle carries
no state consulted by the verified operations). -/
structure FunctionBuilder where
  func : Function
  loc : CursorLocation
  ssa_builder : SsaBuilder

namespace FunctionBuilder

def new (sig : Signature) : FunctionBuilder :=
  { func := Function.new sig, loc := .noWhere, ssa_builder := SsaBuilder.new }

def append_block (fb : FunctionBuilder) : FunctionBuilder × Block :=
  let (dfg1, block) := fb.func.dfg.make_block
  ({ fb with func := { fb.func with dfg := dfg1, layout := fb.func.layout.append_block block } }, block)

def switch_to_block (fb : FunctionBuilder) (block : Block) : FunctionBuilder :=
  { fb with loc := .blockBottom block }

def make_imm_value (fb : FunctionBuilder) (imm : Immediate) : FunctionBuilder × Value :=
  let (dfg1, v) := fb.func.dfg.make_imm_value imm
  ({ fb with func := { fb.func with dfg := dfg1 } }, v)

/-- `insert_insn`: create the instruction through the cursor, insert it into
the layout at the current location, create and attach its result value when
the opcode produces one, and move the cursor to `At(insn)`. -/
def insert_insn (fb : FunctionBuilder) (data : InsnData) :
    Option (FunctionBuilder × Option Value) := do
  let dfg1 := (fb.func.dfg.make_insn data).1
  let insn := (fb.func.dfg.make_insn data).2
  let layout1 ← fb.func.layout.insertInsn fb.loc insn
  match dfg1.make_result insn with
  | some vd =>
      let dfg2 := (dfg1.make_value vd).1
      let v := (dfg1.make_value vd).2
      let dfg3 ← dfg2.attach_result insn v
      some ({ fb with func := { fb.func with dfg := dfg3, layout := layout1 }
                      loc := .atInsn insn }, some v)
  | none =>
      some ({ fb with func := { fb.func with dfg := dfg1, layout := layout1 }
                      loc := .atInsn insn }, none)

def jump (fb : FunctionBuilder) (dest : Block) : Option FunctionBuilder :=
  if fb.ssa_builder.is_sealed dest then none
  else
    match cursorBlock fb.func.layout fb.loc with
    | none => none
    | some pred =>
        let fb1 := { fb with ssa_builder := fb.ssa_builder.append_pred dest pred }
        (fb1.insert_insn (.jump dest)).map (·.1)

def br (fb : FunctionBuilder) (cond : Value) (then_ else_ : Block) :
    Option FunctionBuilder :=
  if fb.ssa_builder.is_sealed then_ then none
  else if fb.ssa_builder.is_sealed else_ then none
  else
    match cursorBlock fb.func.layout fb.loc with
    | none => none
    | some block =>
        let ssa1 := (fb.ssa_builder.append_pred then_ block).append_pred else_ block
        let fb1 := { fb with ssa_builder := ssa1 }
        (fb1.insert_insn (.branch cond then_ else_)).map (·.1)

def br_table (fb : FunctionBuilder) (cond : Value) (dflt : Option Block)
    (tbl : List (Value × Block)) : Option FunctionBuilder :=
  if dflt.any (fun b => fb.ssa_builder.is_sealed b) then none
  else if tbl.any (fun p => fb.ssa_builder.is_sealed p.2) then none
  else
    let args := cond :: tbl.map (·.1)
    let blocks := tbl.map (·.2)
    match cursorBlock fb.func.layout fb.loc with
    | none => none
    | some block =>
        let ssa1 := match dflt with
          | some b => fb.ssa_builder.append_pred b block
          | none => fb.ssa_builder
        let ssa2 := tbl.foldl (fun s p => s.append_pred p.2 block) ssa1
        let fb1 := { fb with ssa_builder := ssa2 }
        (fb1.insert_insn (.brTable args dflt blocks)).map (·.1)

def ret (fb : FunctionBuilder) (arg : Option Value) : Option FunctionBuilder :=
  (fb.insert_insn (.ret arg)).map (·.1)

def phi (fb : FunctionBuilder) (args : List (Value × Block)) :
    Option (FunctionBuilder × Value) := do
  let first ← args[0]?
  let ty ← fb.func.dfg.value_ty first.1
  let data := InsnData.phi (args.map (·.1)) (args.map (·.2)) ty
  let (fb1, res) ← fb.insert_insn data
  let v ← res
  some (fb1, v)

def is_sealed (fb : FunctionBuilder) (block : Block) : Bool :=
  fb.ssa_builder.is_sealed block

/-- `build`: the debug assertion walks the blocks of the layout and requires
each to be sealed; the function is returned unmodified. -/
def build (fb : FunctionBuilder) : Option Function :=
  if fb.func.layout.blocks.all (fun b => fb.is_sealed b) then some fb.func else none

end FunctionBuilder

/-- CFG successors of a block: the destinations of its last (terminator)
instruction. -/
def Function.block_succs (f : Function) (b : Block) : List Block :=
  match (f.layout.block_insns b).getLast? with
  | some i => ((f.dfg.insns[i]?).map (·.analyze_branch)).getD []
  | none => []

def reachStep (f : Function) (cur : List Block) : List Block :=
  (cur ++ cur.flatMap f.block_succs).dedup

/-- The blocks reachable from the entry block (the first block of the
layout), computed as an iterated closure; iterating once per layout block
reaches the fixpoint. -/
def Function.reachable (f : Function) : List Block :=
  match f.layout.blocks.head? with
  | none => []
  | some entry => (reachStep f)^[f.layout.blocks.length] [entry]

end Codegen

/-! Concrete states used by witnesses and counterexamples. -/

def emptyCtx : ModuleCtx := { gv_store := ⟨[]⟩, declared_funcs := [] }

def sig0 : Signature :=
  { name := "test_func", args := [], ret_ty := none, linkage := .public_ }

/-- A DFG holding one interned immediate (value 0) and a φ (insn 0) that
uses it twice, once from block 1 and once from block 2. -/
def c1dfg : DataFlowGraph :=
  let d := DataFlowGraph.new emptyCtx
  let d := ((List.range 3).foldl (fun d _ => (d.make_block).1) d)
  let (d, v) := d.make_imm_value ⟨8, 1⟩
  (d.make_insn (.phi [v, v] [1, 2] (.int 8))).1

def c1after : DataFlowGraph := ((c1dfg.remove_phi_arg 0 1).map (·.1)).getD c1dfg

/-- A DFG whose insn 0 is a two-way branch on value 0 with both destinations
equal to block 5. -/
def c3dfg : DataFlowGraph :=
  let d := DataFlowGraph.new emptyCtx
  let d := ((List.range 6).foldl (fun d _ => (d.make_block).1) d)
  let (d, v) := d.make_imm_value ⟨1, 1⟩
  (d.make_insn (.branch v 5 5)).1

def c3after : DataFlowGraph := (c3dfg.remove_branch_dest 0 5).getD c3dfg

/-- A DFG whose insn 0 is a jump to block 2. -/
def c3jdfg : DataFlowGraph :=
  let d := DataFlowGraph.new emptyCtx
  let d := ((List.range 3).foldl (fun d _ => (d.make_block).1) d)
  (d.make_insn (.jump 2)).1

/-- A DFG whose insn 0 is a two-way branch on value 0 with destinations
blocks 3 and 4. -/
def c2dfgB : DataFlowGraph :=
  let d := DataFlowGraph.new emptyCtx
  let d := ((List.range 5).foldl (fun d _ => (d.make_block).1) d)
  let (d, v) := d.make_imm_value ⟨1, 1⟩
  (d.make_insn (.branch v 3 4)).1

/-- A DFG whose insn 0 is a branch table on value 0 with one case
(value 1 -> block 4) and default block 3. -/
def c2dfgT : DataFlowGraph :=
  let d := DataFlowGraph.new emptyCtx
  let d := ((List.range 5).foldl (fun d _ => (d.make_block).1) d)
  let (d, v0) := d.make_imm_value ⟨8, 0⟩
  let (d, v1) := d.make_imm_value ⟨8, 1⟩
  (d.make_insn (.brTable [v0, v1] (some 3) [4])).1

/-- A DFG whose insn 0 is `add v0 v0` for the interned immediate value 0. -/
def c7dfg : DataFlowGraph :=
  let d := DataFlowGraph.new emptyCtx
  let (d, v) := d.make_imm_value ⟨8, 1⟩
  let (d, _) := d.make_imm_value ⟨8, 2⟩
  (d.make_insn (.binary .add v v)).1

/-- A module with a single non-constant global that nevertheless has a
scalar init, and a DFG whose value 0 refers to it. -/
def c8gv : GlobalVariableData :=
  { symbol := "g", ty := .int 32, linkage := .public_, is_const := false
    init := some (.immediate ⟨32, 7⟩) }

def c8dfg : DataFlowGraph :=
  let d := DataFlowGraph.new { gv_store := ⟨[c8gv]⟩, declared_funcs := [] }
  (((d.make_global_value 0).map (·.1)).getD d)

def c5mb : ModuleBuilder := { funcs := [], ctx := emptyCtx, declared_funcs := [] }

def c5sig : Signature :=
  { name := "f", args := [.int 32], ret_ty := some (.int 32), linkage := .public_ }

def c5sig2 : Signature :=
  { name := "f", args := [], ret_ty := none, linkage := .external_ }

/-- A function builder over one appended block with the cursor parked at its
bottom and one interned immediate (value 0). -/
def c6fb : Codegen.FunctionBuilder :=
  let fb := Codegen.FunctionBuilder.new sig0
  let (fb, b) := fb.append_block
  let fb := fb.switch_to_block b
  (fb.make_imm_value ⟨8, 1⟩).1

/-- A builder whose layout holds two blocks: block 0 carries a `return` and
is sealed, block 1 was appended but never targeted by any terminator and
never sealed — so it is unreachable from the entry block. -/
def c9fb : Codegen.FunctionBuilder :=
  let fb := Codegen.FunctionBuilder.new sig0
  let (fb, b0) := fb.append_block
  let (fb, _) := fb.append_block
  let fb := fb.switch_to_block b0
  let fb := (fb.ret none).getD fb
  { fb with ssa_builder :=
      { fb.ssa_builder with sealed_blocks := upd fb.ssa_builder.sealed_blocks b0 true } }

/-! Theorems. -/

theorem upd_same {α β : Type} [DecidableEq α] (m : α → β) (k : α) (v : β) :
    upd m k v k = v := by
  simp [upd]

theorem upd_other {α β : Type} [DecidableEq α] (m : α → β) (k x : α) (v : β)
    (h : x ≠ k) : upd m k v x = m x := by
  simp [upd, h]

/-- C1: the claim asserts user-set consistency after any sequence of the
listed mutators, explicitly including a value occurring as two φ entries
from different predecessors.  The code breaks it: `remove_phi_arg` removes
the user edge unconditionally, so after removing one of two entries that
carry the same value, the value is still an operand of the φ but the φ is no
longer in its user set. -/
theorem C1_remove_phi_arg_user_set_bug :
    (c1dfg.remove_phi_arg 0 1).isSome = true ∧
    0 ∈ c1dfg.insn_args 0 ∧ 0 ∈ c1dfg.users 0 ∧
    0 ∈ c1after.insn_args 0 ∧ 0 ∉ c1after.users 0 := by decide

/-- C3 counterexample: a two-way branch whose destinations are both block 5
is rewritten by `remove_branch_dest(insn, 5)` into `jump block5`, so block 5
is still among the instruction's destinations, contradicting the claim's
postcondition (which it asserts in particular for this duplicated case). -/
theorem C3_counterexample :
    (c3dfg.remove_branch_dest 0 5).isSome = true ∧
    5 ∈ c3dfg.analyze_branch 0 ∧
    c3after.analyze_branch 0 = [5] := by decide

/-- C8 counterexample: `value_gv` returns the global variable of any
`Global` value — here one whose GV is not constant — whereas the claim says
it returns `None` for all values other than constant-with-scalar-init
globals. -/
theorem C8_counterexample :
    c8dfg.value_data 0 = some (.global 0 (.ptr (.int 32))) ∧
    c8dfg.ctx.gv_store.is_const 0 = false ∧
    c8dfg.value_gv 0 = some 0 := by decide

/-- C8 amended: `value_imm` behaves exactly as claimed (Some iff the value
is an interned immediate, or a `Global` whose GV is constant with a scalar
immediate init); `value_gv`, however, returns the GV of every `Global`
value regardless of constness, and `None` only for non-`Global` values. -/
theorem C8_value_queries (d : DataFlowGraph) (v : Value) (vd : ValueData)
    (h : d.value_data v = some vd) :
    (∀ i : Immediate, d.value_imm v = some i ↔
      ((∃ ty, vd = .immediate i ty) ∨
       (∃ gv ty, vd = .global gv ty ∧ d.ctx.gv_store.is_const gv = true ∧
          d.ctx.gv_store.init_data gv = some (.immediate i)))) ∧
    (d.value_gv v = match vd with | .global gv _ => some gv | _ => none) := by
  constructor
  · intro i
    cases vd with
    | insn j ty => simp [DataFlowGraph.value_imm, h]
    | arg ty idx => simp [DataFlowGraph.value_imm, h]
    | immediate imm ty =>
        simp only [DataFlowGraph.value_imm, h]
        constructor
        · rintro ⟨rfl⟩
          exact Or.inl ⟨ty, rfl⟩
        · rintro (⟨ty2, heq⟩ | ⟨gv, ty2, heq, _⟩)
          · cases heq; rfl
          · cases heq
    | global gv ty =>
        simp only [DataFlowGraph.value_imm, h]
        by_cases hc : d.ctx.gv_store.is_const gv
        · simp only [hc, not_true, if_neg, ite_false]
          cases hi : d.ctx.gv_store.init_data gv with
          | none => simp [hi]
          | some cv =>
              cases cv with
              | immediate imm =>
                  simp only [hi]
                  constructor
                  · rintro ⟨rfl⟩
                    exact Or.inr ⟨gv, ty, rfl, hc, hi⟩
                  · rintro (⟨ty2, heq⟩ | ⟨gv2, ty2, heq, _, hinit⟩)
                    · cases heq
                    · cases heq
                      rw [hi] at hinit
                      cases hinit
                      rfl
              | aggregate elems => simp [hi]
        · simp only [hc, if_pos, not_false_iff]
          simp only [Bool.not_eq_true] at hc
          constructor
          · intro hcontra
            simp at hcontra
          · rintro (⟨ty2, heq⟩ | ⟨gv2, ty2, heq, hconst, _⟩)
            · cases heq
            · cases heq
              rw [hc] at hconst
              cases hconst
  · cases vd <;> simp [DataFlowGraph.value_gv, h]

/-- C8 witness: the amended characterization evaluated on the concrete
non-constant-global module. -/
theorem C8_witness :
    (∀ i : Immediate, c8dfg.value_imm 0 = some i ↔
      ((∃ ty, ValueData.global 0 (.ptr (.int 32)) = .immediate i ty) ∨
       (∃ gv ty, ValueData.global 0 (.ptr (.int 32)) = .global gv ty ∧
          c8dfg.ctx.gv_store.is_const gv = true ∧
          c8dfg.ctx.gv_store.init_data gv = some (.immediate i)))) ∧
    c8dfg.value_gv 0 = some 0 :=
  C8_value_queries c8dfg 0 (.global 0 (.ptr (.int 32))) (by decide)

/-- C9 counterexample: a builder state in which every block reachable from
the entry is sealed, yet `build()`'s debug assertion fires (it walks all
blocks of the layout, sealed or not, reachable or not). -/
theorem C9_counterexample :
    (∀ b ∈ c9fb.func.reachable, c9fb.is_sealed b = true) ∧
    (c9fb.build).isSome = false := by decide

/-- C9 amended: `build` returns the function unmodified, and the debug
assertion does not fire exactly when every block of the layout (not merely
every reachable block) is sealed. -/
theorem C9_build_layout_sealed (fb : Codegen.FunctionBuilder)
    (h : ∀ b ∈ fb.func.layout.blocks, fb.is_sealed b = true) :
    fb.build = some fb.func := by
  simp [Codegen.FunctionBuilder.build, List.all_eq_true.mpr h]

/-- C9 witness: a freshly created builder has an empty layout, so `build`
succeeds and hands back its function. -/
theorem C9_witness :
    (Codegen.FunctionBuilder.new sig0).build
      = some (Codegen.FunctionBuilder.new sig0).func :=
  C9_build_layout_sealed _ (by decide)

theorem immLookup_append_left (m1 m2 : List (Immediate × Value)) (imm : Immediate)
    (v : Value) (h : DataFlowGraph.immLookup m1 imm = some v) :
    DataFlowGraph.immLookup (m1 ++ m2) imm = some v := by
  unfold DataFlowGraph.immLookup at *
  rw [List.find?_append]
  cases h1 : m1.find? (fun p => decide (p.1 = imm)) with
  | none => rw [h1] at h; cases h
  | some x => rw [h1] at h; simpa [Option.or] using h

theorem immLookup_append_self (m : List (Immediate × Value)) (imm : Immediate)
    (v : Value) (h : DataFlowGraph.immLookup m imm = none) :
    DataFlowGraph.immLookup (m ++ [(imm, v)]) imm = some v := by
  unfold DataFlowGraph.immLookup at *
  rw [List.find?_append]
  cases h1 : m.find? (fun p => decide (p.1 = imm)) with
  | none => simp [Option.or, List.find?]
  | some x => rw [h1] at h; cases h

theorem make_imm_value_lookup (d : DataFlowGraph) (imm : Immediate) :
    DataFlowGraph.immLookup (d.make_imm_value imm).1.immediates imm
      = some (d.make_imm_value imm).2 := by
  unfold DataFlowGraph.make_imm_value
  cases h : DataFlowGraph.immLookup d.immediates imm with
  | some v => simp [h]
  | none =>
      simp only [h, DataFlowGraph.make_value]
      exact immLookup_append_self _ _ _ h

theorem make_imm_value_of_mem (d : DataFlowGraph) (imm : Immediate) (v : Value)
    (h : DataFlowGraph.immLookup d.immediates imm = some v) :
    d.make_imm_value imm = (d, v) := by
  unfold DataFlowGraph.make_imm_value
  rw [h]

theorem attach_user_imm (d : DataFlowGraph) (insn : Insn) (d' : DataFlowGraph)
    (h : d.attach_user insn = some d') : d'.immediates = d.immediates := by
  unfold DataFlowGraph.attach_user at h
  cases h1 : d.insns[insn]? <;> rw [h1] at h
  · cases h
  · cases h; rfl

theorem replace_insn_imm (d : DataFlowGraph) (insn : Insn) (data : InsnData)
    (d' : DataFlowGraph) (h : d.replace_insn insn data = some d') :
    d'.immediates = d.immediates := by
  unfold DataFlowGraph.replace_insn at h
  cases h1 : d.insns[insn]? <;> rw [h1] at h
  · cases h
  · cases h; rfl

theorem change_to_alias_imm (d : DataFlowGraph) (v a : Value) (d' : DataFlowGraph)
    (h : d.change_to_alias v a = some d') : d'.immediates = d.immediates := by
  unfold DataFlowGraph.change_to_alias at h
  split at h
  · cases h; rfl
  · cases h

theorem replace_insn_arg_imm (d : DataFlowGraph) (insn : Insn) (n : Value) (idx : Nat)
    (r : DataFlowGraph × Value) (h : d.replace_insn_arg insn n idx = some r) :
    r.1.immediates = d.immediates := by
  unfold DataFlowGraph.replace_insn_arg at h
  cases h1 : d.insns[insn]? <;> rw [h1] at h
  · cases h
  · rename_i data
    simp only [Option.bind_eq_bind, Option.some_bind] at h
    cases h2 : data.args[idx]? <;> rw [h2] at h
    · cases h
    · cases h; rfl

theorem append_phi_arg_imm (d : DataFlowGraph) (insn : Insn) (v : Value) (b : Block)
    (d' : DataFlowGraph) (h : d.append_phi_arg insn v b = some d') :
    d'.immediates = d.immediates := by
  unfold DataFlowGraph.append_phi_arg at h
  cases h1 : d.insns[insn]? <;> rw [h1] at h
  · cases h
  · rename_i data
    simp only [Option.bind_eq_bind, Option.some_bind] at h
    cases h2 : data.append_phi_arg v b <;> rw [h2] at h
    · cases h
    · simp only [Option.some_bind] at h
      have h3 := attach_user_imm _ _ _ h
      exact h3

theorem remove_phi_arg_imm (d : DataFlowGraph) (insn : Insn) (b : Block)
    (r : DataFlowGraph × Value) (h : d.remove_phi_arg insn b = some r) :
    r.1.immediates = d.immediates := by
  unfold DataFlowGraph.remove_phi_arg at h
  cases h1 : d.insns[insn]? <;> rw [h1] at h
  · cases h
  · rename_i data
    simp only [Option.bind_eq_bind, Option.some_bind] at h
    cases h2 : data.remove_phi_arg b <;> rw [h2] at h
    · cases h
    · cases h; rfl

theorem remove_branch_dest_imm (d : DataFlowGraph) (insn : Insn) (dest : Block)
    (d' : DataFlowGraph) (h : d.remove_branch_dest insn dest = some d') :
    d'.immediates = d.immediates := by
  unfold DataFlowGraph.remove_branch_dest at h
  obtain ⟨data, h1, h2⟩ := Option.bind_eq_some.mp h
  cases data with
  | jump dest0 => cases h2
  | branch cond d0 d1 =>
      rcases ite_eq_iff.mp h2 with ⟨_, h3⟩ | ⟨_, h3⟩
      · cases h3; rfl
      · rcases ite_eq_iff.mp h3 with ⟨_, h4⟩ | ⟨_, h4⟩
        · cases h4; rfl
        · cases h4
  | brTable args dflt tbl =>
      rcases ite_eq_iff.mp h2 with ⟨_, h3⟩ | ⟨_, h3⟩ <;> (cases h3; rfl)
  | unary op a => cases h2
  | binary op a b2 => cases h2
  | cast op a t => cases h2
  | load a t l => cases h2
  | store a b2 l => cases h2
  | alloca t => cases h2
  | ret a => cases h2
  | phi vs bs t => cases h2
  | call f as => cases h2

theorem attach_result_imm (d : DataFlowGraph) (insn : Insn) (v : Value)
    (d' : DataFlowGraph) (h : d.attach_result insn v = some d') :
    d'.immediates = d.immediates := by
  unfold DataFlowGraph.attach_result at h
  split at h
  · cases h
  · cases h; rfl

theorem make_global_value_imm (d : DataFlowGraph) (gv : GlobalVariable)
    (r : DataFlowGraph × Value) (h : d.make_global_value gv = some r) :
    r.1.immediates = d.immediates := by
  unfold DataFlowGraph.make_global_value at h
  cases h1 : d.ctx.gv_store.ty gv <;> rw [h1] at h
  · cases h
  · cases h; rfl

/-- Every mutation step preserves an established interning binding: no
operation but `make_imm_value` touches the immediates map, and
`make_imm_value` only extends it with a key that was absent. -/
theorem applyOp_immLookup (d : DataFlowGraph) (op : DfgOp) (imm : Immediate) (v : Value)
    (h : DataFlowGraph.immLookup d.immediates imm = some v) :
    DataFlowGraph.immLookup (applyOp d op).immediates imm = some v := by
  cases op with
  | mkBlock => exact h
  | mkValue vd => exact h
  | mkImm imm2 =>
      show DataFlowGraph.immLookup (d.make_imm_value imm2).1.immediates imm = some v
      unfold DataFlowGraph.make_imm_value
      cases h1 : DataFlowGraph.immLookup d.immediates imm2 with
      | some w => exact h
      | none => exact immLookup_append_left _ _ _ _ h
  | mkGlobal gv =>
      show DataFlowGraph.immLookup (((d.make_global_value gv).map (·.1)).getD d).immediates imm = some v
      cases h1 : d.make_global_value gv with
      | none => simpa [h1] using h
      | some r => simpa [make_global_value_imm d gv r h1] using h
  | mkInsn data => exact h
  | replaceOp insn data =>
      show DataFlowGraph.immLookup ((d.replace_insn insn data).getD d).immediates imm = some v
      cases h1 : d.replace_insn insn data with
      | none => simpa [h1] using h
      | some d2 => simpa [replace_insn_imm d insn data d2 h1] using h
  | aliasOp x a =>
      show DataFlowGraph.immLookup ((d.change_to_alias x a).getD d).immediates imm = some v
      cases h1 : d.change_to_alias x a with
      | none => simpa [h1] using h
      | some d2 => simpa [change_to_alias_imm d x a d2 h1] using h
  | replaceArgOp insn n idx =>
      show DataFlowGraph.immLookup (((d.replace_insn_arg insn n idx).map (·.1)).getD d).immediates imm = some v
      cases h1 : d.replace_insn_arg insn n idx with
      | none => simpa [h1] using h
      | some r => simpa [replace_insn_arg_imm d insn n idx r h1] using h
  | appendPhiOp insn x b =>
      show DataFlowGraph.immLookup ((d.append_phi_arg insn x b).getD d).immediates imm = some v
      cases h1 : d.append_phi_arg insn x b with
      | none => simpa [h1] using h
      | some d2 => simpa [append_phi_arg_imm d insn x b d2 h1] using h
  | removePhiOp insn b =>
      show DataFlowGraph.immLookup (((d.remove_phi_arg insn b).map (·.1)).getD d).immediates imm = some v
      cases h1 : d.remove_phi_arg insn b with
      | none => simpa [h1] using h
      | some r => simpa [remove_phi_arg_imm d insn b r h1] using h
  | removeBranchDestOp insn b =>
      show DataFlowGraph.immLookup ((d.remove_branch_dest insn b).getD d).immediates imm = some v
      cases h1 : d.remove_branch_dest insn b with
      | none => simpa [h1] using h
      | some d2 => simpa [remove_branch_dest_imm d insn b d2 h1] using h
  | attachUserOp insn =>
      show DataFlowGraph.immLookup ((d.attach_user insn).getD d).immediates imm = some v
      cases h1 : d.attach_user insn with
      | none => simpa [h1] using h
      | some d2 => simpa [attach_user_imm d insn d2 h1] using h
  | removeUserOp x u => exact h
  | attachResultOp insn x =>
      show DataFlowGraph.immLookup ((d.attach_result insn x).getD d).immediates imm = some v
      cases h1 : d.attach_result insn x with
      | none => simpa [h1] using h
      | some d2 => simpa [attach_result_imm d insn x d2 h1] using h

theorem applyOps_immLookup (ops : List DfgOp) (d : DataFlowGraph) (imm : Immediate)
    (v : Value) (h : DataFlowGraph.immLookup d.immediates imm = some v) :
    DataFlowGraph.immLookup (applyOps ops d).immediates imm = some v := by
  induction ops generalizing d with
  | nil => exact h
  | cons op rest ih => exact ih _ (applyOp_immLookup d op imm v h)

/-- C4: immediate interning is idempotent and deterministic.  A first call
on a DFG not yet holding the immediate appends a fresh `Immediate` value;
after any sequence of further DFG operations, calling `make_imm_value` with
the same immediate returns the handle produced by the first call and leaves
the DFG unchanged. -/
theorem C4_make_imm_value_interned (d : DataFlowGraph) (imm : Immediate)
    (ops : List DfgOp) :
    (DataFlowGraph.immLookup d.immediates imm = none →
      (d.make_imm_value imm).2 = d.values.length ∧
      (d.make_imm_value imm).1.values = d.values ++ [.immediate imm imm.ty]) ∧
    (applyOps ops (d.make_imm_value imm).1).make_imm_value imm
      = (applyOps ops (d.make_imm_value imm).1, (d.make_imm_value imm).2) := by
  constructor
  · intro h
    simp [DataFlowGraph.make_imm_value, h, DataFlowGraph.make_value]
  · exact make_imm_value_of_mem _ _ _
      (applyOps_immLookup ops _ imm _ (make_imm_value_lookup d imm))

/-- C4 witness: interning the 8-bit immediate 1 into a fresh DFG, then
allocating a block, then interning again returns the original handle with
the state untouched. -/
theorem C4_witness :
    ((((DataFlowGraph.new emptyCtx).make_imm_value ⟨8, 1⟩).2
        = (DataFlowGraph.new emptyCtx).values.length ∧
      ((DataFlowGraph.new emptyCtx).make_imm_value ⟨8, 1⟩).1.values
        = (DataFlowGraph.new emptyCtx).values ++ [.immediate ⟨8, 1⟩ (Immediate.ty ⟨8, 1⟩)]) ∧
     (applyOps [DfgOp.mkBlock] (((DataFlowGraph.new emptyCtx).make_imm_value ⟨8, 1⟩).1)).make_imm_value ⟨8, 1⟩
       = (applyOps [DfgOp.mkBlock] (((DataFlowGraph.new emptyCtx).make_imm_value ⟨8, 1⟩).1),
          ((DataFlowGraph.new emptyCtx).make_imm_value ⟨8, 1⟩).2)) :=
  ⟨(C4_make_imm_value_interned (DataFlowGraph.new emptyCtx) ⟨8, 1⟩ [DfgOp.mkBlock]).1 (by decide),
   (C4_make_imm_value_interned (DataFlowGraph.new emptyCtx) ⟨8, 1⟩ [DfgOp.mkBlock]).2⟩

theorem lookupName_append_self (m : List (String × FuncRef)) (n : String)
    (fr : FuncRef) (h : lookupName m n = none) :
    lookupName (m ++ [(n, fr)]) n = some fr := by
  unfold lookupName at *
  rw [List.find?_append]
  cases h1 : m.find? (fun p => decide (p.1 = n)) with
  | none => simp [Option.or, List.find?]
  | some x => rw [h1] at h; cases h

/-- C5: `declare_function` is idempotent by name — a second declaration
whose signature has the same name returns the `FuncRef` of the first and
leaves the module builder (function store, name map, and the context's
signature table) completely unchanged, discarding the later signature. -/
theorem C5_declare_function_idempotent (mb : ModuleBuilder) (sig sig2 : Signature)
    (hname : sig2.name = sig.name) :
    ((mb.declare_function sig).1).declare_function sig2 = mb.declare_function sig := by
  cases h : lookupName mb.declared_funcs sig.name with
  | some fr =>
      have h1 : mb.declare_function sig = (mb, fr) := by
        simp [ModuleBuilder.declare_function, h]
      rw [h1]
      simp [ModuleBuilder.declare_function, hname, h]
  | none =>
      have h2 : lookupName (mb.declared_funcs ++ [(sig.name, mb.funcs.length)]) sig2.name
          = some mb.funcs.length := by
        rw [hname]; exact lookupName_append_self _ _ _ h
      simp [ModuleBuilder.declare_function, h, h2]

/-- C5 witness: declaring `f` twice — the second time with a different
signature of the same name — returns the first `FuncRef` and leaves the
module builder unchanged. -/
theorem C5_witness :
    ((c5mb.declare_function c5sig).1).declare_function c5sig2
      = c5mb.declare_function c5sig :=
  C5_declare_function_idempotent c5mb c5sig c5sig2 rfl

/-- Writing through `args_mut()[idx]` updates exactly the operand list. -/
theorem InsnData.setArg_args (d : InsnData) (i : Nat) (v : Value) :
    (d.setArg i v).args = d.args.set i v := by
  cases d with
  | unary op a => cases i with | zero => rfl | succ n => rfl
  | binary op a b =>
      cases i with
      | zero => rfl
      | succ n => cases n with | zero => rfl | succ m => rfl
  | cast op a t => cases i with | zero => rfl | succ n => rfl
  | load a t l => cases i with | zero => rfl | succ n => rfl
  | store a b l =>
      cases i with
      | zero => rfl
      | succ n => cases n with | zero => rfl | succ m => rfl
  | alloca t => cases i <;> rfl
  | jump dd => cases i <;> rfl
  | branch c t e => cases i with | zero => rfl | succ n => rfl
  | brTable as dd tb => rfl
  | ret a =>
      cases a with
      | none => cases i <;> rfl
      | some x => cases i with | zero => rfl | succ n => rfl
  | phi vs bs t => rfl
  | call f as => rfl

/-- C7: `replace_insn_arg` substitutes the operand at `idx`, returns the
previous operand, records the instruction as a user of the new value, and
removes the old user edge only when the old value no longer occurs anywhere
among the instruction's operands; when it still occurs — in particular when
it survives at another index or equals the new value — the instruction
remains a user of it. -/
theorem C7_replace_insn_arg_contract (d : DataFlowGraph) (insn : Insn)
    (new_arg old_arg : Value) (idx : Nat) (data : InsnData)
    (hdata : d.insns[insn]? = some data) (hold : data.args[idx]? = some old_arg) :
    ∃ d', d.replace_insn_arg insn new_arg idx = some (d', old_arg) ∧
      d'.insns[insn]? = some (data.setArg idx new_arg) ∧
      (data.setArg idx new_arg).args = data.args.set idx new_arg ∧
      insn ∈ d'.users new_arg ∧
      (old_arg ∉ data.args.set idx new_arg →
        d'.users old_arg = (d.users old_arg).erase insn) ∧
      (old_arg ∈ data.args.set idx new_arg →
        (insn ∈ d'.users old_arg ↔ insn ∈ d.users old_arg ∨ old_arg = new_arg)) := by
  have hlt : insn < d.insns.length := (List.getElem?_eq_some.mp hdata).1
  have hidx : idx < data.args.length := (List.getElem?_eq_some.mp hold).1
  have hnew_mem : new_arg ∈ data.args.set idx new_arg :=
    List.mem_set data.args idx hidx new_arg
  unfold DataFlowGraph.replace_insn_arg
  simp only [hdata, hold, Option.bind_eq_bind, Option.some_bind,
    InsnData.setArg_args]
  refine ⟨_, rfl, ?_, trivial, ?_, ?_, ?_⟩
  · simpa using List.getElem?_set_self hlt
  · by_cases hmem : old_arg ∈ data.args.set idx new_arg
    · simp only [if_pos hmem, upd_same]
      exact Finset.mem_insert_self insn _
    · have hne : new_arg ≠ old_arg := fun he => hmem (he ▸ hnew_mem)
      simp only [if_neg hmem, upd_other _ _ _ _ hne, upd_same]
      exact Finset.mem_insert_self insn _
  · intro hno
    have hne : old_arg ≠ new_arg := fun he => hno (he ▸ hnew_mem)
    simp only [if_neg hno, upd_same, upd_other _ _ _ _ hne]
  · intro hmem
    simp only [if_pos hmem]
    by_cases heq : old_arg = new_arg
    · subst heq
      simp [upd_same]
    · simp [upd_other _ _ _ _ heq, heq]

/-- C7 witness: replacing the first operand of `add v0 v0` with value 1 —
the old operand survives at index 1, so the instruction stays in the user
set of value 0 while also becoming a user of value 1. -/
theorem C7_witness :
    ∃ d', c7dfg.replace_insn_arg 0 1 0 = some (d', 0) ∧
      d'.insns[0]? = some ((InsnData.binary .add 0 0).setArg 0 1) ∧
      ((InsnData.binary .add 0 0).setArg 0 1).args = [0, 0].set 0 1 ∧
      0 ∈ d'.users 1 ∧
      ((0 : Value) ∉ [0, 0].set 0 1 → d'.users 0 = (c7dfg.users 0).erase 0) ∧
      ((0 : Value) ∈ [0, 0].set 0 1 →
        (0 ∈ d'.users 0 ↔ 0 ∈ c7dfg.users 0 ∨ (0 : Value) = 1)) :=
  C7_replace_insn_arg_contract c7dfg 0 1 0 0 (.binary .add 0 0) (by decide) (by decide)

theorem findIdx_isSome_of_mem {α : Type} (p : α → Bool) (l : List α) (x : α)
    (hx : x ∈ l) (hp : p x = true) : (l.findIdx? p).isSome := by
  rw [List.findIdx?_isSome]
  exact List.any_eq_true.mpr ⟨x, hx, hp⟩

theorem insertInsn_isSome (l : Codegen.Layout) (loc : Codegen.CursorLocation)
    (b : Block) (hb : Codegen.cursorBlock l loc = some b) (insn : Insn) :
    (l.insertInsn loc insn).isSome := by
  cases loc with
  | noWhere => cases hb
  | blockTop b2 => rfl
  | blockBottom b2 => rfl
  | atInsn i =>
      simp only [Codegen.cursorBlock] at hb
      have hb2 : l.blocks.find? (fun b2 => decide (i ∈ l.block_insns b2)) = some b := hb
      have hp := List.find?_some hb2
      have hmem : i ∈ l.block_insns b := by simpa using hp
      obtain ⟨idx, hidx⟩ := Option.isSome_iff_exists.mp
        (findIdx_isSome_of_mem (fun x => decide (x = i)) (l.block_insns b) i hmem
          (by simp))
      simp [Codegen.Layout.insertInsn, Codegen.Layout.insn_block, hb2, hidx]

/-- Inserting an instruction whose opcode yields no result: the layout is
updated at the cursor, the DFG gains only the instruction, and the cursor
moves to it. -/
theorem insert_insn_no_result (fb : Codegen.FunctionBuilder) (data : InsnData)
    (l1 : Codegen.Layout)
    (hl : fb.func.layout.insertInsn fb.loc fb.func.dfg.insns.length = some l1)
    (hres : ∀ f g, data.result_type f g = none) :
    fb.insert_insn data = some
      ({ fb with func := { fb.func with dfg := (fb.func.dfg.make_insn data).1
                                        layout := l1 }
                 loc := .atInsn fb.func.dfg.insns.length }, none) := by
  have hget : (fb.func.dfg.make_insn data).1.insns[fb.func.dfg.insns.length]?
      = some data := by
    show (fb.func.dfg.insns ++ [data])[fb.func.dfg.insns.length]? = some data
    exact List.getElem?_concat_length _ _
  have hmr : (fb.func.dfg.make_insn data).1.make_result fb.func.dfg.insns.length
      = none := by
    unfold DataFlowGraph.make_result
    rw [hget]
    simp [hres]
  unfold Codegen.FunctionBuilder.insert_insn
  simp only [Option.bind_eq_bind]
  rw [show (fb.func.dfg.make_insn data).2 = fb.func.dfg.insns.length from rfl]
  simp only [hl, hmr, Option.some_bind]

/-- Inserting a φ instruction: a fresh result value carrying the φ's type is
created and attached, and the instruction lands at the cursor. -/
theorem insert_insn_phi (fb : Codegen.FunctionBuilder) (vs : List Value)
    (bs : List Block) (ty : Ty) (l1 : Codegen.Layout)
    (hl : fb.func.layout.insertInsn fb.loc fb.func.dfg.insns.length = some l1)
    (hres : fb.func.dfg.insn_results fb.func.dfg.insns.length = none) :
    fb.insert_insn (.phi vs bs ty) = some
      ({ fb with
          func := { fb.func with
            dfg := { ((fb.func.dfg.make_insn (.phi vs bs ty)).1.make_value
                        (.insn fb.func.dfg.insns.length ty)).1 with
              insn_results := upd fb.func.dfg.insn_results fb.func.dfg.insns.length
                (some fb.func.dfg.values.length) }
            layout := l1 }
          loc := .atInsn fb.func.dfg.insns.length },
        some fb.func.dfg.values.length) := by
  have hget : (fb.func.dfg.make_insn (.phi vs bs ty)).1.insns[fb.func.dfg.insns.length]?
      = some (.phi vs bs ty) := by
    show (fb.func.dfg.insns ++ [.phi vs bs ty])[fb.func.dfg.insns.length]?
      = some (.phi vs bs ty)
    exact List.getElem?_concat_length _ _
  have hmr : (fb.func.dfg.make_insn (.phi vs bs ty)).1.make_result
      fb.func.dfg.insns.length = some (.insn fb.func.dfg.insns.length ty) := by
    unfold DataFlowGraph.make_result
    rw [hget]
    exact rfl
  have hne : ¬ ((((fb.func.dfg.make_insn (.phi vs bs ty)).1.make_value
      (.insn fb.func.dfg.insns.length ty)).1.insn_results
        fb.func.dfg.insns.length).isSome = true) := by
    show ¬ ((fb.func.dfg.insn_results fb.func.dfg.insns.length).isSome = true)
    rw [hres]
    simp
  unfold Codegen.FunctionBuilder.insert_insn
  simp only [Option.bind_eq_bind]
  rw [show (fb.func.dfg.make_insn (InsnData.phi vs bs ty)).2
      = fb.func.dfg.insns.length from rfl]
  simp only [hl, hmr, Option.some_bind]
  unfold DataFlowGraph.attach_result
  rw [if_neg hne]
  exact rfl

/-- C6: emitting `jump`, `br` or `br_table` first asserts that no
destination is sealed (the call panics otherwise), then reads the current
block from the cursor and appends it as a predecessor of each destination
in the SSA builder — for `br` the then- and else-blocks in order, for
`br_table` the default first and then the case destinations in table
order — before the terminator is inserted (the inserted terminator leaves
the recorded SSA state untouched). -/
theorem C6_terminator_pred_recording (fb : Codegen.FunctionBuilder) (b : Block)
    (hb : Codegen.cursorBlock fb.func.layout fb.loc = some b) :
    (∀ dest, fb.ssa_builder.is_sealed dest = true → fb.jump dest = none) ∧
    (∀ dest, fb.ssa_builder.is_sealed dest = false →
      ∃ fb', fb.jump dest = some fb' ∧
        fb'.ssa_builder = fb.ssa_builder.append_pred dest b) ∧
    (∀ cond t e, fb.ssa_builder.is_sealed t = true ∨ fb.ssa_builder.is_sealed e = true →
      fb.br cond t e = none) ∧
    (∀ cond t e, fb.ssa_builder.is_sealed t = false →
      fb.ssa_builder.is_sealed e = false →
      ∃ fb', fb.br cond t e = some fb' ∧
        fb'.ssa_builder = (fb.ssa_builder.append_pred t b).append_pred e b) ∧
    (∀ cond dflt tbl,
      (∃ x, dflt = some x ∧ fb.ssa_builder.is_sealed x = true) ∨
      (∃ p ∈ tbl, fb.ssa_builder.is_sealed p.2 = true) →
      fb.br_table cond dflt tbl = none) ∧
    (∀ cond dflt tbl,
      (∀ x, dflt = some x → fb.ssa_builder.is_sealed x = false) →
      (∀ p ∈ tbl, fb.ssa_builder.is_sealed p.2 = false) →
      ∃ fb', fb.br_table cond dflt tbl = some fb' ∧
        fb'.ssa_builder = tbl.foldl (fun s p => s.append_pred p.2 b)
          (match dflt with
           | some x => fb.ssa_builder.append_pred x b
           | none => fb.ssa_builder)) := by
  have hins : ∀ (ssa : Codegen.SsaBuilder) (data : InsnData),
      (∀ f g, data.result_type f g = none) →
      ∃ fb2 : Codegen.FunctionBuilder,
        ({ fb with ssa_builder := ssa } : Codegen.FunctionBuilder).insert_insn data
          = some (fb2, none) ∧ fb2.ssa_builder = ssa := by
    intro ssa data hres
    obtain ⟨l1, hl⟩ := Option.isSome_iff_exists.mp
      (insertInsn_isSome fb.func.layout fb.loc b hb fb.func.dfg.insns.length)
    exact ⟨_, insert_insn_no_result { fb with ssa_builder := ssa } data l1 hl hres,
      rfl⟩
  refine ⟨?_, ?_, ?_, ?_, ?_, ?_⟩
  · intro dest h
    simp [Codegen.FunctionBuilder.jump, h]
  · intro dest h
    obtain ⟨fb2, hi, hssa⟩ :=
      hins (fb.ssa_builder.append_pred dest b) (.jump dest) (fun f g => rfl)
    refine ⟨fb2, ?_, hssa⟩
    simp only [Codegen.FunctionBuilder.jump, h, Bool.false_eq_true, if_false, hb]
    rw [hi]
    rfl
  · intro cond t e h
    rcases h with h | h
    · simp [Codegen.FunctionBuilder.br, h]
    · by_cases h2 : fb.ssa_builder.is_sealed t
      · simp [Codegen.FunctionBuilder.br, h2]
      · simp [Codegen.FunctionBuilder.br, h2, h]
  · intro cond t e ht he
    obtain ⟨fb2, hi, hssa⟩ :=
      hins ((fb.ssa_builder.append_pred t b).append_pred e b)
        (.branch cond t e) (fun f g => rfl)
    refine ⟨fb2, ?_, hssa⟩
    simp only [Codegen.FunctionBuilder.br, ht, he, Bool.false_eq_true, if_false, hb]
    rw [hi]
    rfl
  · intro cond dflt tbl h
    rcases h with ⟨x, rfl, hx⟩ | ⟨p, hp, hps⟩
    · simp [Codegen.FunctionBuilder.br_table, Option.any, hx]
    · by_cases h2 : dflt.any (fun x => fb.ssa_builder.is_sealed x)
      · simp [Codegen.FunctionBuilder.br_table, h2]
      · have h3 : tbl.any (fun p => fb.ssa_builder.is_sealed p.2) = true :=
          List.any_eq_true.mpr ⟨p, hp, hps⟩
        simp [Codegen.FunctionBuilder.br_table, h2, h3]
  · intro cond dflt tbl hd htl
    have h3 : tbl.any (fun p => fb.ssa_builder.is_sealed p.2) = false := by
      rw [List.any_eq_false]
      intro p hp
      simp [htl p hp]
    cases dflt with
    | none =>
        obtain ⟨fb2, hi, hssa⟩ :=
          hins (tbl.foldl (fun s p => s.append_pred p.2 b) fb.ssa_builder)
            (.brTable (cond :: tbl.map (·.1)) none (tbl.map (·.2))) (fun f g => rfl)
        refine ⟨fb2, ?_, hssa⟩
        simp only [Codegen.FunctionBuilder.br_table, Option.any, h3,
          Bool.false_eq_true, if_false, hb]
        rw [hi]
        rfl
    | some x =>
        have h2 : fb.ssa_builder.is_sealed x = false := hd x rfl
        obtain ⟨fb2, hi, hssa⟩ :=
          hins (tbl.foldl (fun s p => s.append_pred p.2 b)
              (fb.ssa_builder.append_pred x b))
            (.brTable (cond :: tbl.map (·.1)) (some x) (tbl.map (·.2)))
            (fun f g => rfl)
        refine ⟨fb2, ?_, hssa⟩
        simp only [Codegen.FunctionBuilder.br_table, Option.any, h2, h3,
          Bool.false_eq_true, if_false, hb]
        rw [hi]
        rfl

/-- C6 witness: on a builder whose cursor sits at the bottom of block 0,
`jump` records block 0 as a predecessor of its destination, and `br_table`
records it for the default first and then the single case destination. -/
theorem C6_witness :
    (∃ fb', c6fb.jump 1 = some fb' ∧
      fb'.ssa_builder = c6fb.ssa_builder.append_pred 1 0) ∧
    (∃ fb', c6fb.br_table 0 (some 2) [(0, 3)] = some fb' ∧
      fb'.ssa_builder = [((0 : Value), (3 : Block))].foldl
        (fun s p => s.append_pred p.2 0) (c6fb.ssa_builder.append_pred 2 0)) :=
  ⟨(C6_terminator_pred_recording c6fb 0 (by decide)).2.1 1 rfl,
   (C6_terminator_pred_recording c6fb 0 (by decide)).2.2.2.2.2 0 (some 2) [(0, 3)]
     (fun x hx => by cases hx; rfl) (by decide)⟩

/-- C10: the φ constructor reads its result type from the first entry of
its argument slice — the remaining entries' types are never consulted — and
panics on an empty slice via the out-of-bounds index `args[0]`. -/
theorem C10_phi_first_entry_type (fb : Codegen.FunctionBuilder)
    (args : List (Value × Block)) :
    (fb.phi [] = none) ∧
    (∀ first rest ty l1, args = first :: rest →
      fb.func.dfg.value_ty first.1 = some ty →
      fb.func.layout.insertInsn fb.loc fb.func.dfg.insns.length = some l1 →
      fb.func.dfg.insn_results fb.func.dfg.insns.length = none →
      ∃ fb' v, fb.phi args = some (fb', v) ∧
        fb'.func.dfg.value_ty v = some ty) := by
  constructor
  · rfl
  · rintro first rest ty l1 rfl hty hl hres
    have hkey := insert_insn_phi fb ((first :: rest).map (·.1))
      ((first :: rest).map (·.2)) ty l1 hl hres
    have hphi : fb.phi (first :: rest)
        = (fb.insert_insn (.phi ((first :: rest).map (·.1))
            ((first :: rest).map (·.2)) ty)).bind
          (fun r => r.2.bind (fun v => some (r.1, v))) := by
      unfold Codegen.FunctionBuilder.phi
      simp only [List.getElem?_cons_zero, Option.bind_eq_bind, Option.some_bind, hty]
    rw [hkey] at hphi
    simp only [Option.bind_eq_bind, Option.some_bind] at hphi
    refine ⟨_, _, hphi, ?_⟩
    show ((fb.func.dfg.values
        ++ [ValueData.insn fb.func.dfg.insns.length ty])[fb.func.dfg.values.length]?).map
          ValueData.ty = some ty
    rw [List.getElem?_concat_length]
    rfl

/-- C10 witness: on the concrete builder, `phi []` panics, and
`phi [(v0, block0)]` returns a value of v0's type `i8`. -/
theorem C10_witness :
    (c6fb.phi [] = none) ∧
    (∃ fb' v, c6fb.phi [(0, 0)] = some (fb', v) ∧
      fb'.func.dfg.value_ty v = some (.int 8)) :=
  ⟨(C10_phi_first_entry_type c6fb []).1,
   (C10_phi_first_entry_type c6fb [(0, 0)]).2 (0, 0) [] (.int 8)
     ((c6fb.func.layout.insertInsn c6fb.loc c6fb.func.dfg.insns.length).getD
       Codegen.Layout.empty)
     rfl (by decide) rfl rfl⟩

theorem dropUsers_preserve (u : Value → Finset Insn) (insn : Insn) (vals : List Value)
    (x : Value) (h : insn ∉ u x) : insn ∉ DataFlowGraph.dropUsers u insn vals x := by
  induction vals generalizing u with
  | nil => exact h
  | cons a rest ih =>
      apply ih
      by_cases hx : x = a
      · subst hx
        simp [upd_same]
      · simpa [upd_other _ _ _ _ hx] using h

theorem dropUsers_not_mem (u : Value → Finset Insn) (insn : Insn) (vals : List Value) :
    ∀ a ∈ vals, insn ∉ DataFlowGraph.dropUsers u insn vals a := by
  induction vals generalizing u with
  | nil => intro a ha; cases ha
  | cons b rest ih =>
      intro a ha
      have hstep : DataFlowGraph.dropUsers u insn (b :: rest)
          = DataFlowGraph.dropUsers (upd u b ((u b).erase insn)) insn rest := rfl
      rcases List.mem_cons.mp ha with hab | ha2
      · rw [hstep, hab]
        apply dropUsers_preserve
        simp [upd_same]
      · rw [hstep]
        exact ih _ a ha2

theorem remove_branch_dest_of_branch (d : DataFlowGraph) (insn : Insn) (dest : Block)
    (cond : Value) (d0 d1 : Block)
    (hdata : d.insns[insn]? = some (.branch cond d0 d1)) :
    d.remove_branch_dest insn dest =
      (if d0 = dest then
        some { d with insns := d.insns.set insn (.jump d1)
                      users := upd d.users cond ((d.users cond).erase insn) }
      else if d1 = dest then
        some { d with insns := d.insns.set insn (.jump d0)
                      users := upd d.users cond ((d.users cond).erase insn) }
      else none) := by
  unfold DataFlowGraph.remove_branch_dest
  rw [hdata]
  exact rfl

theorem remove_branch_dest_of_brTable (d : DataFlowGraph) (insn : Insn) (dest : Block)
    (args : List Value) (dflt : Option Block) (tbl : List Block)
    (hdata : d.insns[insn]? = some (.brTable args dflt tbl)) :
    d.remove_branch_dest insn dest =
      (if (DataFlowGraph.brTableStep args dflt tbl dest).analyze_branch.length = 1 then
        some { d with
          insns := d.insns.set insn
            (.jump ((DataFlowGraph.brTableStep args dflt tbl dest).analyze_branch.getD 0 0))
          users := DataFlowGraph.dropUsers
            (DataFlowGraph.dropUsers d.users insn
              (DataFlowGraph.brTableDroppedVals args dflt tbl dest))
            insn (DataFlowGraph.brTableStep args dflt tbl dest).args }
      else
        some { d with
          insns := d.insns.set insn (DataFlowGraph.brTableStep args dflt tbl dest)
          users := DataFlowGraph.dropUsers d.users insn
            (DataFlowGraph.brTableDroppedVals args dflt tbl dest) }) := by
  unfold DataFlowGraph.remove_branch_dest
  rw [hdata]
  exact rfl

/-- C2: the reduction law of `remove_branch_dest`.  A two-way branch with a
matching destination collapses to a `Jump` to the other destination and the
condition's user edge is dropped; a branch table whose removal step leaves
exactly one destination (the default counted) collapses to a `Jump` to it,
and the user edges of the condition and of all remaining case values are
dropped. -/
theorem C2_remove_branch_dest_reduction (d : DataFlowGraph) (insn : Insn) :
    (∀ cond d0 d1 dest, d.insns[insn]? = some (.branch cond d0 d1) →
      (dest = d0 ∨ dest = d1) →
      ∃ d', d.remove_branch_dest insn dest = some d' ∧
        d'.insns[insn]? = some (.jump (if d0 = dest then d1 else d0)) ∧
        insn ∉ d'.users cond) ∧
    (∀ args dflt tbl dest b, d.insns[insn]? = some (.brTable args dflt tbl) →
      (DataFlowGraph.brTableStep args dflt tbl dest).analyze_branch = [b] →
      ∃ d', d.remove_branch_dest insn dest = some d' ∧
        d'.insns[insn]? = some (.jump b) ∧
        ∀ a ∈ (DataFlowGraph.brTableStep args dflt tbl dest).args,
          insn ∉ d'.users a) := by
  constructor
  · intro cond d0 d1 dest hdata hdest
    have hlt : insn < d.insns.length := (List.getElem?_eq_some.mp hdata).1
    rw [remove_branch_dest_of_branch d insn dest cond d0 d1 hdata]
    by_cases h0 : d0 = dest
    · simp only [if_pos h0]
      refine ⟨_, rfl, ?_, ?_⟩
      · simpa using List.getElem?_set_self hlt
      · simp [upd_same]
    · rcases hdest with rfl | rfl
      · exact absurd rfl h0
      · simp only [if_neg h0, if_pos rfl]
        refine ⟨_, rfl, ?_, ?_⟩
        · simpa using List.getElem?_set_self hlt
        · simp [upd_same]
  · intro args dflt tbl dest b hdata hone
    have hlt : insn < d.insns.length := (List.getElem?_eq_some.mp hdata).1
    rw [remove_branch_dest_of_brTable d insn dest args dflt tbl hdata]
    have hlen : (DataFlowGraph.brTableStep args dflt tbl dest).analyze_branch.length = 1 := by
      rw [hone]; rfl
    simp only [if_pos hlen, hone]
    refine ⟨_, rfl, ?_, ?_⟩
    · simpa using List.getElem?_set_self hlt
    · exact dropUsers_not_mem _ insn _

theorem brTableStep_dest_not_mem (cond : Value) (rest : List Value) (dflt : Option Block)
    (tbl : List Block) (dest : Block) (hnd : ¬(dflt = some dest ∧ dest ∈ tbl)) :
    dest ∉ (DataFlowGraph.brTableStep (cond :: rest) dflt tbl dest).analyze_branch := by
  by_cases hd : dflt = some dest
  · have htbl : dest ∉ tbl := fun hmem => hnd ⟨hd, hmem⟩
    have hstep : DataFlowGraph.brTableStep (cond :: rest) dflt tbl dest
        = .brTable (cond :: rest) none tbl := by
      unfold DataFlowGraph.brTableStep
      rw [if_pos hd]
    rw [hstep]
    simpa [InsnData.analyze_branch] using htbl
  · have hstep : DataFlowGraph.brTableStep (cond :: rest) dflt tbl dest
      = .brTable (cond :: ((tbl.zip rest).filter (fun p => decide (p.1 ≠ dest))).map (·.2))
          dflt (((tbl.zip rest).filter (fun p => decide (p.1 ≠ dest))).map (·.1)) := by
      unfold DataFlowGraph.brTableStep
      rw [if_neg hd]
    rw [hstep]
    simp only [InsnData.analyze_branch, List.mem_append]
    rintro (hm1 | hm2)
    · cases dflt with
      | none => exact absurd hm1 (List.not_mem_nil dest)
      | some x =>
          have hx : dest = x := by simpa using hm1
          exact hd (by rw [hx])
    · rcases List.mem_map.mp hm2 with ⟨p, hp, hpe⟩
      have hne := (List.mem_filter.mp hp).2
      simp only [ne_eq, decide_not, Bool.not_eq_eq_eq_not, Bool.not_true,
        decide_eq_false_iff_not] at hne
      exact hne hpe

/-- C3 amended: after `remove_branch_dest(I, B)` the block `B` is no longer
among the destinations of `I`, provided the two destinations of a `Branch`
are distinct and `B` is not simultaneously the default and a case target of
a `BrTable`; in the two duplicated cases the code leaves `B` among the
destinations (see the counterexample).  Calling it on a `Jump` panics. -/
theorem C3_remove_branch_dest_postcondition (d : DataFlowGraph) (insn : Insn) :
    (∀ b0 dest, d.insns[insn]? = some (.jump b0) →
      d.remove_branch_dest insn dest = none) ∧
    (∀ cond d0 d1 dest, d.insns[insn]? = some (.branch cond d0 d1) →
      d0 ≠ d1 → (dest = d0 ∨ dest = d1) →
      ∃ d', d.remove_branch_dest insn dest = some d' ∧
        dest ∉ d'.analyze_branch insn) ∧
    (∀ cond rest dflt tbl dest,
      d.insns[insn]? = some (.brTable (cond :: rest) dflt tbl) →
      ¬(dflt = some dest ∧ dest ∈ tbl) →
      ∃ d', d.remove_branch_dest insn dest = some d' ∧
        dest ∉ d'.analyze_branch insn) := by
  refine ⟨?_, ?_, ?_⟩
  · intro b0 dest hdata
    unfold DataFlowGraph.remove_branch_dest
    rw [hdata]
    exact rfl
  · intro cond d0 d1 dest hdata hne hdest
    have hlt : insn < d.insns.length := (List.getElem?_eq_some.mp hdata).1
    rw [remove_branch_dest_of_branch d insn dest cond d0 d1 hdata]
    rcases hdest with rfl | rfl
    · simp only [if_pos rfl]
      refine ⟨_, rfl, ?_⟩
      simp [DataFlowGraph.analyze_branch, List.getElem?_set_self hlt,
        InsnData.analyze_branch]
      exact hne
    · simp only [if_neg hne, if_pos rfl]
      refine ⟨_, rfl, ?_⟩
      simp [DataFlowGraph.analyze_branch, List.getElem?_set_self hlt,
        InsnData.analyze_branch]
      exact fun he => hne he.symm
  · intro cond rest dflt tbl dest hdata hnd
    have hlt : insn < d.insns.length := (List.getElem?_eq_some.mp hdata).1
    have hnm := brTableStep_dest_not_mem cond rest dflt tbl dest hnd
    rw [remove_branch_dest_of_brTable d insn dest (cond :: rest) dflt tbl hdata]
    by_cases hlen :
        (DataFlowGraph.brTableStep (cond :: rest) dflt tbl dest).analyze_branch.length = 1
    · obtain ⟨x, hx⟩ := List.length_eq_one.mp hlen
      rw [hx] at hnm
      simp only [if_pos hlen, hx]
      refine ⟨_, rfl, ?_⟩
      simpa [DataFlowGraph.analyze_branch, List.getElem?_set_self hlt,
        InsnData.analyze_branch, List.getD] using hnm
    · simp only [if_neg hlen]
      refine ⟨_, rfl, ?_⟩
      simpa [DataFlowGraph.analyze_branch, List.getElem?_set_self hlt] using hnm

/-- C3 witness: the amended postcondition at a `Jump` (panic), at a branch
with distinct destinations, and at a branch table whose removed block is
only the default. -/
theorem C3_witness :
    (c3jdfg.remove_branch_dest 0 1 = none) ∧
    (∃ d', c2dfgB.remove_branch_dest 0 4 = some d' ∧ 4 ∉ d'.analyze_branch 0) ∧
    (∃ d', c2dfgT.remove_branch_dest 0 3 = some d' ∧ 3 ∉ d'.analyze_branch 0) :=
  ⟨(C3_remove_branch_dest_postcondition c3jdfg 0).1 2 1 (by decide),
   (C3_remove_branch_dest_postcondition c2dfgB 0).2.1 0 3 4 4 (by decide)
     (by decide) (Or.inr rfl),
   (C3_remove_branch_dest_postcondition c2dfgT 0).2.2 0 [1] (some 3) [4] 3
     (by decide) (by decide)⟩

/-- C2 witness: a concrete two-way branch collapsing to a jump, and a
concrete branch table whose default removal leaves one destination and
collapses to a jump with all operand user edges dropped. -/
theorem C2_witness :
    (∃ d', c2dfgB.remove_branch_dest 0 4 = some d' ∧
      d'.insns[0]? = some (.jump (if 3 = 4 then 4 else 3)) ∧
      0 ∉ d'.users 0) ∧
    (∃ d', c2dfgT.remove_branch_dest 0 3 = some d' ∧
      d'.insns[0]? = some (.jump 4) ∧
      ∀ a ∈ (DataFlowGraph.brTableStep [0, 1] (some 3) [4] 3).args,
        0 ∉ d'.users a) :=
  ⟨(C2_remove_branch_dest_reduction c2dfgB 0).1 0 3 4 4 (by decide) (Or.inr rfl),
   (C2_remove_branch_dest_reduction c2dfgT 0).2 [0, 1] (some 3) [4] 3 4
     (by decide) (by decide)⟩

end Sonatina
